import Mathlib

/-!
Verification of the IMPHTTAB consistency checker (`checkimpht.py`).

The checker walks a FITS table: a primary header (key-value pairs) plus a
list of extensions, each extension holding rows that map column names to
values.  Column values are strings, numeric scalars or numeric arrays.
Numeric payloads are modelled as integers: every comparison the checker
performs on them is an exact comparison against 0, against the singleton
array [0], or a length comparison, so the float/int distinction is
irrelevant to any property proved here.

The Python code is dynamically typed and reports findings with `print`;
uncaught exceptions abort the run.  The embedding makes both explicit:
each check returns `Except RunErr (List Finding)` where `.ok fs` is the
ordered list of findings the code would print and `.error e` is an
uncaught Python exception (KeyError, IndexError, NameError, ...).
-/

/-- Python exception kinds that the checker can raise. -/
inductive RunErr where
  | keyError      -- missing column or header key
  | indexError    -- sequence index out of range: last char of an empty string, row 0 of no rows
  | nameError     -- reference to an unbound variable (the undefined p in check_row)
  | typeError     -- operation on a value of the wrong runtime type
  | valueError    -- ambiguous truth value of a multi-element array
  deriving DecidableEq, Repr

/-- A cell value of the table: numeric scalar, string, or numeric array. -/
inductive Value where
  | int (n : Int)
  | str (s : String)
  | arr (a : List Int)
  deriving DecidableEq, Repr

/-- A row: ordered mapping from column name to value (`pyfits` record). -/
abbrev Row := List (String × Value)

/-- One table extension: its name and its rows. -/
structure TableExt where
  name : String
  rows : List Row
  deriving DecidableEq, Repr

/-- The primary header: ordered mapping from keyword to value. -/
abbrev Header := List (String × Value)

/-- One reported inconsistency.  Constructors carry exactly the data that
the corresponding `print` statement in `checkimpht.py` interpolates. -/
inductive Finding where
  /-- Message: Header does not have key K. -/
  | headerMissingKey (key : String)
  /-- Message: Number of image extensions is N and does not match header keyword M. -/
  | extCountMismatch (actual : Nat) (declared : Value)
  /-- Message: obsmode for row I: A does not match row 0: F. -/
  | obsmodeMismatch (row : Nat) (actual first : String)
  /-- Message: Obsmode column is empty for extension E row R. -/
  | obsmodeEmpty (ext row : Nat)
  /-- Message: Row R of extension E should have length X but has length A. -/
  | rowLen (row ext : Nat) (expected actual : Nat)
  /-- Message: Column C of extension E row R is zero and should not be. -/
  | colZero (col : String) (ext row : Nat)
  /-- Message: Column C of extension E row R is not 0, V instead. -/
  | colNotZeroScalar (col : String) (ext row : Nat) (actual : Value)
  /-- Message: Column C of extension E row R is not the singleton zero array, V instead. -/
  | colNotZeroList (col : String) (ext row : Nat) (actual : Value)
  /-- Message: Column C of extension E row R is not an array, V instead. -/
  | colNotArray (col : String) (ext row : Nat) (actual : Value)
  /-- Message: Column C of extension E row R has value V when it should be blank. -/
  | colNotBlank (col : String) (ext row : Nat) (actual : Value)
  /-- Message: Column C of extension E row R is blank when it should not be. -/
  | colBlank (col : String) (ext row : Nat)
  /-- Message: Column C of extension E row R should have length X, has length A instead. -/
  | dataLen (col : String) (ext row : Nat) (expected : Int) (actual : Nat)
  /-- Message: Length of column C of extension E row R should be X, is A instead. -/
  | parValLen (col : String) (ext row : Nat) (expected : Value) (actual : Nat)
  deriving DecidableEq, Repr

/-- Column lookup in a row. -/
def rowLookup (row : Row) (nm : String) : Option Value :=
  List.lookup nm row

/-- Column access as a computation: raises KeyError when the column is absent. -/
def getVal (row : Row) (nm : String) : Except RunErr Value :=
  match rowLookup row nm with
  | some v => .ok v
  | none => .error .keyError

/-- A value expected to be a Python str (TypeError otherwise). -/
def asStr : Value → Except RunErr String
  | .str s => .ok s
  | _ => .error .typeError

/-- A value expected to be a Python int (TypeError otherwise). -/
def asInt : Value → Except RunErr Int
  | .int n => .ok n
  | _ => .error .typeError

/-- Truth value of comparing a cell with an integer, Python-2 and numpy
semantics: an int compares by value, a str never equals an int, a
one-element numpy array compares by its sole element, and the truth
value of a comparison with any other array is ambiguous (ValueError). -/
def pyEqInt : Value → Int → Except RunErr Bool
  | .int n, k => .ok (n == k)
  | .str _, _ => .ok false
  | .arr [x], k => .ok (x == k)
  | .arr _, _ => .error .valueError

/-- Truth value of comparing a cell with a string (Python 2): a str
compares by value, an int and numpy arrays compare unequal to a string. -/
def pyEqStr : Value → String → Except RunErr Bool
  | .str s, t => .ok (s == t)
  | .int _, _ => .ok false
  | .arr _, _ => .ok false

/-- Python len: defined on strings and arrays, TypeError on an int. -/
def pyLen : Value → Except RunErr Nat
  | .str s => .ok s.length
  | .arr a => .ok a.length
  | .int _ => .error .typeError

/-- The tolist method: succeeds exactly on numpy arrays; on anything else
it raises AttributeError, which the source catches. -/
def pyToList : Value → Option (List Int)
  | .arr a => some a
  | _ => none

/-- Multiplication of the running product by a cell, as used by the
data_len accumulation; the NELEM columns hold integers, any other
runtime type is modelled as a TypeError. -/
def pyMulVal (acc : Int) : Value → Except RunErr Int
  | .int n => .ok (acc * n)
  | _ => .error .typeError

/-- Python range(a, b). -/
def pyRange (a b : Nat) : List Nat :=
  List.range' a (b - a)

/-- Sequence two finding-producing computations, concatenating their
findings; an uncaught exception in the first aborts the second (the
Python statements run in order). -/
def seq2 (x y : Except RunErr (List Finding)) : Except RunErr (List Finding) := do
  let a ← x
  let b ← y
  .ok (a ++ b)

/-- Run a check for every element of a list in order, concatenating the
findings (a Python `for` loop over `print`-reporting checks). -/
def forFindings (l : List α) (f : α → Except RunErr (List Finding)) :
    Except RunErr (List Finding) :=
  match l with
  | [] => .ok []
  | x :: xs => seq2 (f x) (forFindings xs f)

/-- Name of the i-th NELEM column. -/
def nelemName (i : Nat) : String := "NELEM" ++ Nat.repr i

/-- Name of the i-th PARNAMES column. -/
def parNamesName (i : Nat) : String := "PAR" ++ Nat.repr i ++ "NAMES"

/-- Name of the i-th PARVALUES column. -/
def parValsName (i : Nat) : String := "PAR" ++ Nat.repr i ++ "VALUES"

/-- Name of the i-th data column of a family. -/
def dataColName (family : String) (i : Nat) : String := family ++ Nat.repr i

/-- The list comprehension building str(x) for x in range(1, num_par+1). -/
def indexStrings (P : Nat) : List String :=
  (pyRange 1 (P + 1)).map Nat.repr

/-- Last character of a Python string; IndexError on the empty string. -/
def pyLastChar (s : String) : Except RunErr Char :=
  match s.data.getLast? with
  | some c => .ok c
  | none => .error .indexError

/-- A Python string without its last character. -/
def pyDropLast (s : String) : String := String.mk s.data.dropLast

/-- Python int() of a one-character string; ValueError on a non-digit. -/
def pyParseDigit (c : Char) : Except RunErr Nat :=
  if c.isDigit then .ok (c.toNat - 48) else .error .valueError

/-- The two-way classification check_row derives from datacol: plain
case, or array case with its active slot. -/
inductive RowClass where
  | plain (family : String)
  | array (family : String) (np : Nat)
  deriving DecidableEq, Repr

/-- Classification step of check_row: the row is an array case exactly
when the last character of datacol is a member of indexStrings; the
active slot is the parsed digit and the family is datacol without its
last character, while in the plain case the family is datacol itself. -/
def classifyDatacol (P : Nat) (s : String) : Except RunErr RowClass := do
  let c ← pyLastChar s
  if String.mk [c] ∈ indexStrings P then
    let np ← pyParseDigit c
    .ok (.array (pyDropLast s) np)
  else
    .ok (.plain s)

/-- A column that should hold the scalar 0 (finding otherwise); embeds
the pattern at lines 192, 182 and 220 of checkimpht.py. -/
def chkIsZero (row : Row) (e r : Nat) (nm : String) : Except RunErr (List Finding) := do
  let v ← getVal row nm
  let b ← pyEqInt v 0
  .ok (if b then [] else [.colNotZeroScalar nm e r v])

/-- The buggy datacol-string check at line 142 of checkimpht.py: it
compares the string stored in the column literally named datacol with 0,
not the scalar stored in the column that string names; in Python 2 a str
never equals an int, so the branch can never fire. -/
def chkDatacolStrZero (row : Row) (e r : Nat) (datacol : String) :
    Except RunErr (List Finding) := do
  let v ← getVal row "datacol"
  let b ← pyEqInt v 0
  .ok (if b then [.colZero datacol e r] else [])

/-- A column that should be the singleton zero array, checked by the two
datacolnum loops (lines 149-156 and 229-236): both report paths
interpolate the unbound variable p, so a violation (or a non-array cell)
raises NameError instead of printing. -/
def chkListZeroBuggy (row : Row) (_e _r : Nat) (nm : String) :
    Except RunErr (List Finding) := do
  let v ← getVal row nm
  match pyToList v with
  | some a => if a == [0] then .ok [] else .error .nameError
  | none => .error .nameError

/-- A column that should be the singleton zero array, checked by the
parvals loops (lines 169-176 and 270-277), whose loop variable is bound:
a violation is reported as a finding. -/
def chkListZero (row : Row) (e r : Nat) (nm : String) :
    Except RunErr (List Finding) := do
  let v ← getVal row nm
  match pyToList v with
  | some a => .ok (if a == [0] then [] else [.colNotZeroList nm e r v])
  | none => .ok [.colNotArray nm e r v]

/-- A column that should be the empty string (lines 161-164, 252-255). -/
def chkBlank (row : Row) (e r : Nat) (nm : String) : Except RunErr (List Finding) := do
  let v ← getVal row nm
  let b ← pyEqStr v ""
  .ok (if b then [] else [.colNotBlank nm e r v])

/-- A column that should not be the empty string (lines 244-247). -/
def chkNonBlank (row : Row) (e r : Nat) (nm : String) : Except RunErr (List Finding) := do
  let v ← getVal row nm
  let b ← pyEqStr v ""
  .ok (if b then [.colBlank nm e r] else [])

/-- The loop at lines 205-210: for each NELEM column up to np, report a
finding when it is zero, and accumulate the product of the values into
the running data length. -/
def nelemProd (row : Row) (e r : Nat) : List String → Int →
    Except RunErr (List Finding × Int)
  | [], acc => .ok ([], acc)
  | nm :: rest, acc => do
    let v ← getVal row nm
    let b ← pyEqInt v 0
    let acc2 ← pyMulVal acc v
    let (fs, p) ← nelemProd row e r rest acc2
    .ok ((if b then [Finding.colZero nm e r] else []) ++ fs, p)

/-- Lines 212-214: the active data column must have length equal to the
accumulated NELEM product. -/
def chkDataLen (row : Row) (e r : Nat) (nm : String) (dlen : Int) :
    Except RunErr (List Finding) := do
  let v ← getVal row nm
  let n ← pyLen v
  .ok (if (n : Int) == dlen then [] else [.dataLen nm e r dlen n])

/-- Lines 262-265: the length of a PARVALUES column must equal the value
of the sibling NELEM column. -/
def chkParValLen (row : Row) (e r : Nat) (pnm nnm : String) :
    Except RunErr (List Finding) := do
  let vp ← getVal row pnm
  let ln ← pyLen vp
  let vn ← getVal row nnm
  let b ← pyEqInt vn (ln : Int)
  .ok (if b then [] else [.parValLen pnm e r vn ln])

/-- The plain-case branch of check_row (lines 139-184). -/
def plainChecks (P : Nat) (row : Row) (e r : Nat) (datacol : String) :
    Except RunErr (List Finding) :=
  seq2 (chkDatacolStrZero row e r datacol)
    (seq2 (forFindings ((pyRange 1 (P + 1)).map (dataColName datacol))
            (chkListZeroBuggy row e r))
      (seq2 (forFindings ((pyRange 1 (P + 1)).map parNamesName) (chkBlank row e r))
        (seq2 (forFindings ((pyRange 1 (P + 1)).map parValsName) (chkListZero row e r))
          (forFindings ((pyRange 1 (P + 1)).map nelemName) (chkIsZero row e r)))))

/-- The array-case branch of check_row (lines 186-277) for active slot
np; the family is datacol without its trailing index digit. -/
def arrayChecks (P np : Nat) (row : Row) (e r : Nat) (datacol : String) :
    Except RunErr (List Finding) :=
  let family := pyDropLast datacol
  seq2 (chkIsZero row e r family)
    (seq2 (do
        let fsdl ← nelemProd row e r ((pyRange 1 (np + 1)).map nelemName) 1
        let lf ← chkDataLen row e r datacol fsdl.2
        .ok (fsdl.1 ++ lf))
      (seq2 (forFindings ((pyRange (np + 1) (P + 1)).map nelemName) (chkIsZero row e r))
        (seq2 (forFindings (((pyRange 1 (P + 1)).map (dataColName family)).erase datacol)
                (chkListZeroBuggy row e r))
          (seq2 (forFindings ((pyRange 1 (np + 1)).map parNamesName) (chkNonBlank row e r))
            (seq2 (forFindings ((pyRange (np + 1) (P + 1)).map parNamesName)
                    (chkBlank row e r))
              (seq2 (forFindings
                      (List.zip ((pyRange 1 (np + 1)).map parValsName)
                        ((pyRange 1 (np + 1)).map nelemName))
                      (fun q => chkParValLen row e r q.1 q.2))
                (forFindings ((pyRange (np + 1) (P + 1)).map parValsName)
                  (chkListZero row e r))))))))

/-- check_row (lines 129-277): classify the row from its datacol value
and run the plain-case or array-case invariant checks. -/
def check_row (P : Nat) (row : Row) (ext_num row_num : Nat) :
    Except RunErr (List Finding) := do
  let dv ← getVal row "datacol"
  let datacol ← asStr dv
  match ← classifyDatacol P datacol with
  | .plain fam => plainChecks P row ext_num row_num fam
  | .array _ np => arrayChecks P np row ext_num row_num datacol

/-- check_obsmode (lines 110-116): report a finding when the obsmode
value has length zero. -/
def check_obsmode (v : Value) (ext_num row_num : Nat) : Except RunErr (List Finding) := do
  let l ← pyLen v
  .ok (if l == 0 then [.obsmodeEmpty ext_num row_num] else [])

/-- check_row_len (lines 118-127): the row must have 5 + 4 * num_par
columns. -/
def check_row_len (P : Nat) (row : Row) (ext_num row_num : Nat) : List Finding :=
  if row.length == 5 + 4 * P then [] else
    [.rowLen row_num ext_num (5 + 4 * P) row.length]

/-- check_rows (lines 95-104): run the three per-row checks on every row
of an extension, in order. -/
def check_rows (P : Nat) (rows : List Row) (ext_num : Nat) :
    Except RunErr (List Finding) :=
  forFindings rows.enum (fun q => do
    let ov ← getVal q.2 "obsmode"
    seq2 (check_obsmode ov ext_num q.1)
      (seq2 (.ok (check_row_len P q.2 ext_num q.1)) (check_row P q.2 ext_num q.1)))

/-- The Python strip(): drop whitespace from both ends. -/
def pyStrip (l : List Char) : List Char :=
  ((l.dropWhile Char.isWhitespace).reverse.dropWhile Char.isWhitespace).reverse

/-- The Python split on a single separator character. -/
def pySplit (sep : Char) : List Char → List (List Char)
  | [] => [[]]
  | c :: rest =>
    let r := pySplit sep rest
    if c == sep then [] :: r
    else
      match r with
      | [] => [[c]]
      | t :: ts => (c :: t) :: ts

/-- Line 82: the reference token, namely the first comma-delimited token
of the stripped obsmode of row 0. -/
def firstTok (l : List Char) : List Char :=
  (pySplit ',' (pyStrip l)).headD []

/-- The obsmode column of an extension: every row must expose an obsmode
string. -/
def getObsmodes (rows : List Row) : Except RunErr (List String) :=
  rows.mapM (fun row => do
    let v ← getVal row "obsmode"
    asStr v)

/-- Lines 81-90 applied to the extracted obsmode column: reading row 0
raises IndexError when the extension has no rows; otherwise every row
whose obsmode does not start with the reference token of row 0 yields a
finding. -/
def obsmodeStartFindings (obsmodes : List String) : Except RunErr (List Finding) :=
  match obsmodes with
  | [] => .error .indexError
  | o0 :: _ =>
    .ok ((obsmodes.enum.filter
            (fun q => !(List.isPrefixOf (firstTok o0.data) q.2.data))).map
          (fun q => Finding.obsmodeMismatch q.1 q.2 o0))

/-- One iteration of the loop in check_ext_data (lines 78-93) for the
extension at (zero-based) position i.  The inner reporting loop at line
89 reuses the loop variable i, so when at least one obsmode mismatch was
reported, check_rows receives the index of the LAST mismatching row plus
one as its extension number instead of i + 1. -/
def extBlock (P i : Nat) (ext : TableExt) : Except RunErr (List Finding) := do
  let obsmodes ← getObsmodes ext.rows
  match obsmodes with
  | [] => .error .indexError
  | o0 :: _ =>
    let bad := obsmodes.enum.filter
      (fun q => !(List.isPrefixOf (firstTok o0.data) q.2.data))
    let sf := bad.map (fun q => Finding.obsmodeMismatch q.1 q.2 o0)
    let iFinal := match bad.getLast? with
      | some q => q.1
      | none => i
    let rf ← check_rows P ext.rows (iFinal + 1)
    .ok (sf ++ rf)

/-- check_ext_data (lines 73-93): run the obsmode-consistency scan and
the per-row checks on every extension. -/
def check_ext_data (P : Nat) (exts : List TableExt) : Except RunErr (List Finding) :=
  forFindings exts.enum (fun q => extBlock P q.1 q.2)

/-- The fixed list of required primary-header keywords (lines 29-48). -/
def requiredKeys : List String :=
  ["SIMPLE", "BITPIX", "NAXIS", "EXTEND", "DATE", "FILENAME", "FILETYPE",
   "NEXTEND", "PHOTZPT", "PARNUM", "DBTABLE", "INSTRUME", "DETECTOR",
   "SYNSWVER", "MKTABVER", "GRAPHTAB", "COMPTAB", "USEAFTER", "PEDIGREE",
   "DESCRIP"]

/-- Uppercase a character (ASCII), structurally. -/
def upChar (c : Char) : Char :=
  if c.isLower then Char.ofNat (c.toNat - 32) else c

/-- Uppercase a string (ASCII), structurally. -/
def upStr (s : String) : String := String.mk (s.data.map upChar)

/-- Case-insensitive header keyword lookup, as pyfits headers provide. -/
def hFind (h : Header) (k : String) : Option Value :=
  (h.find? (fun q => upStr q.1 == upStr k)).map (fun q => q.2)

/-- Header keyword access as a computation (KeyError when absent). -/
def hGet (h : Header) (k : String) : Except RunErr Value :=
  match hFind h k with
  | some v => .ok v
  | none => .error .keyError

/-- check_header_keys (lines 24-52): one finding per missing required
keyword; reporting only, never raises. -/
def check_header_keys (h : Header) : List Finding :=
  requiredKeys.filterMap (fun k =>
    match hFind h k with
    | some _ => none
    | none => some (.headerMissingKey k))

/-- read_header (lines 54-60): unconditional reads of NEXTEND and PARNUM,
each raising KeyError when the keyword is absent. -/
def read_header (h : Header) : Except RunErr (Value × Value) := do
  let ne ← hGet h "nextend"
  let np ← hGet h "parnum"
  .ok (ne, np)

/-- The CheckImpht constructor (lines 18-22): report missing keys, then
read the configuration keywords; a missing NEXTEND or PARNUM aborts with
KeyError before any consistency check can run. -/
def initChecker (h : Header) : Except RunErr (List Finding × Value × Value) := do
  let fs := check_header_keys h
  let kv ← read_header h
  .ok (fs, kv.1, kv.2)

/-- check_header_vals (lines 62-71): the declared extension count must
match the number of loaded extensions. -/
def check_header_vals (numExt : Value) (nExts : Nat) : Except RunErr (List Finding) := do
  let b ← pyEqInt numExt (nExts : Int)
  .ok (if b then [] else [.extCountMismatch nExts numExt])

/-- run_checks (lines 106-108) given the two configuration values read by
read_header.  A negative PARNUM makes every Python range in the checks
empty, hence the clamp to Nat. -/
def run_checks (numExt numPar : Value) (exts : List TableExt) :
    Except RunErr (List Finding) := do
  let f1 ← check_header_vals numExt exts.length
  let np ← asInt numPar
  let f2 ← check_ext_data np.toNat exts
  .ok (f1 ++ f2)

/-- A whole-file run: construct the checker from the primary header, then
run all checks over the extensions. -/
def runFile (h : Header) (exts : List TableExt) : Except RunErr (List Finding) := do
  let (fs, ne, np) ← initChecker h
  let f ← run_checks ne np exts
  .ok (fs ++ f)

/-! ## Concrete rows used by the claim theorems -/

/-- A plain-case row (P = 1) that satisfies every plain-case invariant
except that the scalar stored in the column named by datacol is zero. -/
def zeroScalarRow : Row :=
  [("datacol", Value.str "PHOTFLAM"), ("PHOTFLAM", Value.int 0),
   ("PHOTFLAM1", Value.arr [0]), ("PAR1NAMES", Value.str ""),
   ("PAR1VALUES", Value.arr [0]), ("NELEM1", Value.int 0)]

/-- A plain-case row (P = 1) whose PHOTFLAM1 data column is [1] instead
of the required singleton zero array. -/
def badDataColRow : Row :=
  [("datacol", Value.str "PHOTFLAM"), ("PHOTFLAM", Value.int 5),
   ("PHOTFLAM1", Value.arr [1]), ("PAR1NAMES", Value.str ""),
   ("PAR1VALUES", Value.arr [0]), ("NELEM1", Value.int 0)]

/-- The row of the product-mismatch scenario: P = 2, array case with
np = 2, NELEM1 = 2, NELEM2 = 3, data array of length 4, both PARVALUES
columns of length 2. -/
def prodMismatchRow : Row :=
  [("datacol", Value.str "PHOTFLAM2"), ("PHOTFLAM", Value.int 0),
   ("PHOTFLAM1", Value.arr [0]), ("PHOTFLAM2", Value.arr [1, 2, 3, 4]),
   ("NELEM1", Value.int 2), ("NELEM2", Value.int 3),
   ("PAR1NAMES", Value.str "WAVELENGTH"), ("PAR2NAMES", Value.str "ANGLE"),
   ("PAR1VALUES", Value.arr [10, 20]), ("PAR2VALUES", Value.arr [30, 40])]

/-- The fully conforming array-case scenario row: as prodMismatchRow but
with NELEM2 = 2, so the NELEM product matches the data length. -/
def conformingArrayRow : Row :=
  [("datacol", Value.str "PHOTFLAM2"), ("PHOTFLAM", Value.int 0),
   ("PHOTFLAM1", Value.arr [0]), ("PHOTFLAM2", Value.arr [1, 2, 3, 4]),
   ("NELEM1", Value.int 2), ("NELEM2", Value.int 2),
   ("PAR1NAMES", Value.str "WAVELENGTH"), ("PAR2NAMES", Value.str "ANGLE"),
   ("PAR1VALUES", Value.arr [10, 20]), ("PAR2VALUES", Value.arr [30, 40])]

/-- Row 0 of the extension used for the extension-identity claim: a
conforming plain-case row with the expected 9 columns for P = 1. -/
def extIdRow0 : Row :=
  [("obsmode", Value.str "acs"), ("datacol", Value.str "X"), ("X", Value.int 5),
   ("X1", Value.arr [0]), ("PAR1NAMES", Value.str ""),
   ("PAR1VALUES", Value.arr [0]), ("NELEM1", Value.int 0),
   ("EXTRA1", Value.int 0), ("EXTRA2", Value.int 0)]

/-- Row 1 of that extension: its obsmode does not share the reference
token of row 0, and it has only 8 columns, so the row-shape check must
report it. -/
def extIdRow1 : Row :=
  [("obsmode", Value.str "wfc3"), ("datacol", Value.str "X"), ("X", Value.int 5),
   ("X1", Value.arr [0]), ("PAR1NAMES", Value.str ""),
   ("PAR1VALUES", Value.arr [0]), ("NELEM1", Value.int 0),
   ("EXTRA1", Value.int 0)]

/-! ## Spec-side acceptance predicate for the array case

The following definitions transcribe the WORDS of the specification
invariant for the array case (spec section 3 and the second testable
property of section 8); they are deliberately independent of the
checker embedding above and are compared with it in the claim C2
theorem. -/

/-- The integer stored in a column (0 when absent or not an int);
used only to express the spec-side NELEM product. -/
def lookupIntD (row : Row) (nm : String) : Int :=
  match rowLookup row nm with
  | some (.int v) => v
  | _ => 0

/-- Spec wording: NELEM i is nonzero. -/
def nelemNonzeroB (row : Row) (i : Nat) : Bool :=
  match rowLookup row (nelemName i) with
  | some (.int v) => v != 0
  | _ => false

/-- Spec wording: PAR i NAMES is non-empty. -/
def parNameNonemptyB (row : Row) (i : Nat) : Bool :=
  match rowLookup row (parNamesName i) with
  | some (.str s) => s != ""
  | _ => false

/-- Spec wording: the length of PAR i VALUES equals NELEM i. -/
def parValLenB (row : Row) (i : Nat) : Bool :=
  match rowLookup row (parValsName i), rowLookup row (nelemName i) with
  | some (.arr a), some (.int v) => (a.length : Int) == v
  | _, _ => false

/-- Spec wording: the product of NELEM 1..np equals the length of the
family-np data array exactly. -/
def specProdB (row : Row) (family : String) (np : Nat) : Bool :=
  match rowLookup row (dataColName family np) with
  | some (.arr a) =>
      ((pyRange 1 (np + 1)).foldl (fun acc i => acc * lookupIntD row (nelemName i)) 1)
        == (a.length : Int)
  | _ => false

/-- Spec-side acceptance predicate for an array-case row with active
slot np, family family and parameter count P, transcribed clause by
clause from the spec. -/
def specArrayAccepts (P np : Nat) (family : String) (row : Row) : Bool :=
  (rowLookup row family == some (.int 0))
  && ((pyRange 1 (np + 1)).all (nelemNonzeroB row))
  && specProdB row family np
  && ((pyRange (np + 1) (P + 1)).all
        (fun i => rowLookup row (nelemName i) == some (.int 0)))
  && ((pyRange 1 (P + 1)).all
        (fun i => i == np || rowLookup row (dataColName family i) == some (.arr [0])))
  && ((pyRange 1 (np + 1)).all (parNameNonemptyB row))
  && ((pyRange (np + 1) (P + 1)).all
        (fun i => rowLookup row (parNamesName i) == some (.str "")))
  && ((pyRange 1 (np + 1)).all (parValLenB row))
  && ((pyRange (np + 1) (P + 1)).all
        (fun i => rowLookup row (parValsName i) == some (.arr [0])))

/-- A header carrying every required keyword. -/
def goodHeader : Header := requiredKeys.map (fun k => (k, Value.int 1))

/-- A header missing only PARNUM. -/
def headerNoParnum : Header :=
  (requiredKeys.erase "PARNUM").map (fun k => (k, Value.int 1))

/-- A header missing only DATE (a required key that is never read). -/
def headerNoDate : Header :=
  (requiredKeys.erase "DATE").map (fun k => (k, Value.int 1))

/-! ## Claim theorems on concrete inputs -/

/-- Claim C1 (code bug): on a plain-case row whose bare datacol-named
scalar is 0 while every other plain-case invariant holds, check_row
emits no finding at all, although the claim (and the source comment
"check that the data column has a value") requires a finding whenever
that scalar is zero.  Line 142 compares the datacol string itself with
0 - in Python 2 always false - instead of the scalar it names. -/
theorem c1_plain_zero_scalar_accepted : check_row 1 zeroScalarRow 1 0 = .ok [] := by
  rfl

/-- Claim C3 (code bug): reporting that a data column is not the
singleton zero array does NOT complete without error: the report at
line 153 interpolates the unbound variable p, so the first such breach
raises NameError, aborting the row, its siblings, the remaining rows
and the remaining extensions instead of accumulating a finding. -/
theorem c3_not_zero_array_raises :
    check_row 1 badDataColRow 1 0 = .error .nameError := by
  rfl

/-- Claim C5 counterexample: on the product-mismatch scenario row the
checker does not emit exactly one finding - it emits two. -/
theorem c5_counterexample_two_findings :
    (check_row 2 prodMismatchRow 1 0).map List.length = .ok 2 := by
  rfl

/-- Claim C5 amended: on the product-mismatch scenario row the checker
emits exactly two findings, in order: the product-mismatch finding for
PHOTFLAM2 (expected length 6, actual 4) and the length-mismatch finding
for PAR2VALUES (expected length 3, actual 2). -/
theorem c5_amended_exact_findings :
    check_row 2 prodMismatchRow 1 0 =
      .ok [.dataLen "PHOTFLAM2" 1 0 6 4,
           .parValLen "PAR2VALUES" 1 0 (Value.int 3) 2] := by
  rfl

/-- Claim C7 (code bug): with a single extension (extension number 1)
whose row 1 both breaks the obsmode-prefix rule and has a wrong column
count, the row-shape finding carries extension number 2, not 1: the
reporting loop at line 89 rebinds the extension loop variable i to the
last mismatching row index before check_rows(ext, i+1) is called, so
per-row findings name an extension the row does not belong to whenever
an obsmode-prefix finding was reported earlier for that extension. -/
theorem c7_ext_num_clobbered :
    check_ext_data 1 [⟨"SCI", [extIdRow0, extIdRow1]⟩] =
      .ok [.obsmodeMismatch 1 "wfc3" "acs", .rowLen 1 2 9 8] := by
  rfl

/-- Claim C6 counterexample: an extension with zero rows does not pass
trivially - reading row 0 of the obsmode column raises IndexError - and
a row whose obsmode is a single space has an empty TRIMMED obsmode yet
receives no finding, because check_obsmode tests the raw length. -/
theorem c6_counterexample_empty_cases :
    check_ext_data 1 [⟨"SCI", []⟩] = .error .indexError
    ∧ check_obsmode (Value.str " ") 1 0 = .ok []
    ∧ pyStrip " ".data = [] := by
  exact ⟨rfl, rfl, rfl⟩

/-- Claim C10: a row whose datacol value is the empty string makes
check_row raise IndexError while classifying (line 138 reads the last
character of datacol unconditionally); no finding is emitted, so a
non-empty datacol is an unstated precondition of the engine. -/
theorem c10_empty_datacol_index_error (P : Nat) (row : Row) (e r : Nat)
    (h : rowLookup row "datacol" = some (.str "")) :
    check_row P row e r = .error .indexError := by
  simp [check_row, getVal, h, asStr, classifyDatacol, pyLastChar]
  rfl

/-- Witness for c10_empty_datacol_index_error at a concrete row. -/
theorem c10_empty_datacol_index_error_witness :
    check_row 1 [("datacol", Value.str "")] 1 0 = .error .indexError :=
  c10_empty_datacol_index_error 1 [("datacol", Value.str "")] 1 0 rfl

lemma charToNatInj {c d : Char} (h : c.toNat = d.toNat) : c = d := by
  apply Char.ext
  obtain ⟨⟨⟨⟨cn, clt⟩⟩⟩, cvalid⟩ := c
  obtain ⟨⟨⟨⟨dn, dlt⟩⟩⟩, dvalid⟩ := d
  simp [Char.toNat, UInt32.toNat, BitVec.toNat] at h
  subst h
  rfl

lemma isDigit_toNat_bounds {c : Char} (h : c.isDigit = true) :
    48 ≤ c.toNat ∧ c.toNat ≤ 57 := by
  simp [Char.isDigit, Char.le_def, UInt32.le_def] at h
  obtain ⟨h1, h2⟩ := h
  exact ⟨h1, h2⟩

lemma toDigits_lt10 {n : Nat} (h : n < 10) : Nat.toDigits 10 n = [Nat.digitChar n] := by
  simp [Nat.toDigits, Nat.toDigitsCore, Nat.mod_eq_of_lt h, Nat.div_eq_of_lt h]

lemma repr_lt10 {n : Nat} (h : n < 10) : Nat.repr n = String.mk [Nat.digitChar n] := by
  show (Nat.toDigits 10 n).asString = String.mk [Nat.digitChar n]
  rw [toDigits_lt10 h]
  rfl

lemma toDigitsCore_length_ge (b : Nat) :
    ∀ (fuel m : Nat) (ds : List Char), 1 ≤ fuel →
      ds.length + 1 ≤ (Nat.toDigitsCore b fuel m ds).length := by
  intro fuel
  induction fuel with
  | zero => intro m ds h; exact absurd h (by omega)
  | succ f ih =>
    intro m ds _
    unfold Nat.toDigitsCore
    by_cases hz : m / b = 0
    · simp [hz]
    · rcases Nat.eq_zero_or_pos f with hf | hf
      · subst hf
        simp [hz, Nat.toDigitsCore]
      · have h2 := ih (m / b) (Nat.digitChar (m % b) :: ds) hf
        simp [hz]
        simp at h2
        omega

lemma repr_data_length_ge2 {n : Nat} (h : 10 ≤ n) : 2 ≤ (Nat.repr n).data.length := by
  have hne : ¬ n / 10 = 0 := by
    have : 10 * 1 ≤ n := by omega
    have := (Nat.le_div_iff_mul_le (k := 10) (by omega)).mpr (by omega : 1 * 10 ≤ n)
    omega
  show 2 ≤ (Nat.toDigits 10 n).length
  unfold Nat.toDigits Nat.toDigitsCore
  simp only [hne, if_false]
  have h2 := toDigitsCore_length_ge 10 n (n / 10) [Nat.digitChar (n % 10)] (by omega)
  simpa using h2

lemma digitChar_facts {n : Nat} (h1 : 1 ≤ n) (h9 : n ≤ 9) :
    (Nat.digitChar n).isDigit = true ∧ (Nat.digitChar n).toNat = 48 + n := by
  interval_cases n <;> exact ⟨rfl, rfl⟩

lemma mem_indexStrings (c : Char) (P : Nat) :
    String.mk [c] ∈ indexStrings P ↔
      (c.isDigit = true ∧ 1 ≤ c.toNat - 48 ∧ c.toNat - 48 ≤ P) := by
  constructor
  · intro h
    simp only [indexStrings, pyRange, Nat.add_sub_cancel, List.mem_map] at h
    obtain ⟨n, hn, hrepr⟩ := h
    rw [List.mem_range'_1] at hn
    rcases Nat.lt_or_ge n 10 with h10 | h10
    · rw [repr_lt10 h10] at hrepr
      have hc : Nat.digitChar n = c := by
        have := String.ext_iff.mp hrepr
        simpa using this
      obtain ⟨hd, ht⟩ := digitChar_facts hn.1 (by omega)
      rw [← hc]
      refine ⟨hd, ?_, ?_⟩ <;> omega
    · exfalso
      have hlen : (Nat.repr n).data.length = 1 := by rw [hrepr]; rfl
      have := repr_data_length_ge2 h10
      omega
  · rintro ⟨hd, hlo, hhi⟩
    obtain ⟨h48, h57⟩ := isDigit_toNat_bounds hd
    have h9 : c.toNat - 48 ≤ 9 := by omega
    have hc : c = Nat.digitChar (c.toNat - 48) := by
      apply charToNatInj
      obtain ⟨-, ht⟩ := digitChar_facts hlo h9
      omega
    simp only [indexStrings, pyRange, Nat.add_sub_cancel, List.mem_map]
    refine ⟨c.toNat - 48, ?_, ?_⟩
    · rw [List.mem_range'_1]
      omega
    · rw [repr_lt10 (by omega)]
      rw [← hc]

/-- Claim C4: the plain/array classification of a row depends only on
the last character of datacol: the row is array case with active slot
np and family datacol-minus-last-character exactly when that character
is a decimal digit whose value np lies in 1..P, and otherwise the row
is plain case with the whole untruncated datacol as family. -/
theorem c4_classification_last_char (P : Nat) (s : String) (c : Char)
    (hc : s.data.getLast? = some c) :
    ((c.isDigit = true ∧ 1 ≤ c.toNat - 48 ∧ c.toNat - 48 ≤ P) →
        classifyDatacol P s = .ok (.array (String.mk s.data.dropLast) (c.toNat - 48)))
    ∧ (¬(c.isDigit = true ∧ 1 ≤ c.toNat - 48 ∧ c.toNat - 48 ≤ P) →
        classifyDatacol P s = .ok (.plain s)) := by
  constructor
  · intro hd
    have hmem : String.mk [c] ∈ indexStrings P := (mem_indexStrings c P).mpr hd
    simp [classifyDatacol, pyLastChar, hc, hmem, pyParseDigit, hd.1, pyDropLast, Bind.bind, Except.bind]
  · intro hd
    have hmem : String.mk [c] ∉ indexStrings P :=
      fun hmm => hd ((mem_indexStrings c P).mp hmm)
    simp [classifyDatacol, pyLastChar, hc, hmem, Bind.bind, Except.bind]

theorem c4_classification_last_char_witness :
    classifyDatacol 2 "PHOTFLAM2" = .ok (.array "PHOTFLAM" 2)
    ∧ classifyDatacol 2 "PHOTFLAM" = .ok (.plain "PHOTFLAM") := by
  constructor
  · have h := (c4_classification_last_char 2 "PHOTFLAM2" '2' rfl).1 (by decide)
    exact h
  · have h := (c4_classification_last_char 2 "PHOTFLAM" 'M' rfl).2 (by decide)
    exact h

/-- Claim C9: the row-shape check computes the expected column count as
5 + 4 * P and reports a finding exactly when the actual column count
differs; any finding it reports carries the row index, the extension
number, the expected count 5 + 4 * P and the actual count. -/
theorem c9_row_len_boundary (P : Nat) (row : Row) (e r : Nat) :
    (check_row_len P row e r = [] ↔ row.length = 5 + 4 * P)
    ∧ ∀ f ∈ check_row_len P row e r,
        f = Finding.rowLen r e (5 + 4 * P) row.length := by
  unfold check_row_len
  constructor
  · split <;> simp_all
  · intro f hf
    split at hf <;> simp_all

/-- Witness for c9_row_len_boundary: a row with exactly 9 = 5 + 4
columns passes, rows with 8 or 10 columns are reported. -/
theorem c9_row_len_boundary_witness :
    check_row_len 1 extIdRow0 1 0 = []
    ∧ check_row_len 1 extIdRow1 1 1 = [Finding.rowLen 1 1 9 8]
    ∧ check_row_len 1 (("EXTRA3", Value.int 0) :: extIdRow0) 1 2 =
        [Finding.rowLen 2 1 9 10] := by
  refine ⟨(c9_row_len_boundary 1 extIdRow0 1 0).1.mpr rfl, ?_, rfl⟩
  have h := (c9_row_len_boundary 1 extIdRow1 1 1).2
  rfl

/-- Claim C8: a header lacking PARNUM (or NEXTEND) makes the whole run
fail with a fatal KeyError - an outcome distinct from any list of
findings, with zero consistency checks run - while the absence of any
other required key is reported as a finding and the checker still
constructs successfully. -/
theorem c8_missing_config_fatal :
    (∀ (h : Header) (exts : List TableExt),
        hFind h "PARNUM" = none ∨ hFind h "NEXTEND" = none →
        runFile h exts = .error .keyError)
    ∧ (∀ (h : Header) (k : String), k ∈ requiredKeys → hFind h k = none →
        Finding.headerMissingKey k ∈ check_header_keys h)
    ∧ (∀ h : Header, (hFind h "NEXTEND").isSome → (hFind h "PARNUM").isSome →
        ∃ ne np, initChecker h = .ok (check_header_keys h, ne, np)) := by
  refine ⟨?_, ?_, ?_⟩
  · intro h exts hor
    have hlow1 : hFind h "nextend" = hFind h "NEXTEND" := rfl
    have hlow2 : hFind h "parnum" = hFind h "PARNUM" := rfl
    rcases hne : hFind h "NEXTEND" with _ | v
    · simp [runFile, initChecker, read_header, hGet, hlow1, hlow2, hne,
        Bind.bind, Except.bind]
    · rcases hor with hp | hn
      · simp [runFile, initChecker, read_header, hGet, hlow1, hlow2, hne, hp,
          Bind.bind, Except.bind]
      · rw [hne] at hn
        exact absurd hn (by simp)
  · intro h k hk hnone
    simp only [check_header_keys, List.mem_filterMap]
    refine ⟨k, hk, ?_⟩
    rw [hnone]
  · intro h h1 h2
    obtain ⟨v1, hv1⟩ := Option.isSome_iff_exists.mp h1
    obtain ⟨v2, hv2⟩ := Option.isSome_iff_exists.mp h2
    have hlow1 : hFind h "nextend" = hFind h "NEXTEND" := rfl
    have hlow2 : hFind h "parnum" = hFind h "PARNUM" := rfl
    refine ⟨v1, v2, ?_⟩
    simp [initChecker, read_header, hGet, hlow1, hlow2, hv1, hv2,
      Bind.bind, Except.bind]

/-- Witness for c8_missing_config_fatal at concrete headers. -/
theorem c8_missing_config_fatal_witness :
    runFile headerNoParnum [] = .error .keyError
    ∧ Finding.headerMissingKey "DATE" ∈ check_header_keys headerNoDate
    ∧ ∃ ne np, initChecker headerNoDate = .ok (check_header_keys headerNoDate, ne, np) :=
  ⟨c8_missing_config_fatal.1 headerNoParnum [] (Or.inl (by decide)),
   c8_missing_config_fatal.2.1 headerNoDate "DATE" (by decide) (by decide),
   c8_missing_config_fatal.2.2 headerNoDate (by decide) (by decide)⟩

lemma check_obsmode_str_ok_iff (o : String) (e r : Nat) :
    check_obsmode (.str o) e r = .ok [] ↔ o ≠ "" := by
  have hiff : o = "" ↔ o.data = [] := by cases o; rw [String.ext_iff]
  simp only [check_obsmode, pyLen, Bind.bind, Except.bind]
  by_cases h0 : o.length = 0
  · have he : o = "" := hiff.mpr
      (by rwa [show o.length = o.data.length from rfl, List.length_eq_zero] at h0)
    simp [h0, he]
  · have he : ¬ o = "" := fun he => h0 (by rw [he]; rfl)
    simp [h0, he]

/-- Claim C6 amended: the obsmode emptiness check fires exactly on rows
whose RAW (untrimmed) obsmode string is empty, independent of the prefix
check; an extension with zero rows is not a trivial pass - the prefix
check raises IndexError reading row 0; a single-row extension passes the
obsmode checks with no finding provided its obsmode is nonempty and
starts with the first comma-delimited token of its own stripped value
(in particular, any obsmode without leading whitespace). -/
theorem c6_amended_obsmode :
    (∀ (o : String) (e r : Nat), check_obsmode (.str o) e r = .ok [] ↔ o ≠ "")
    ∧ obsmodeStartFindings [] = .error .indexError
    ∧ (∀ (o : String) (e r : Nat), o ≠ "" →
        List.isPrefixOf (firstTok o.data) o.data = true →
        obsmodeStartFindings [o] = .ok [] ∧ check_obsmode (.str o) e r = .ok []) := by
  refine ⟨check_obsmode_str_ok_iff, rfl, ?_⟩
  intro o e r hne hpre
  constructor
  · simp [obsmodeStartFindings, List.enum, List.enumFrom, List.filter, hpre]
  · exact (check_obsmode_str_ok_iff o e r).mpr hne

/-- Witness for c6_amended_obsmode at concrete obsmode strings. -/
theorem c6_amended_obsmode_witness :
    check_obsmode (Value.str "acs") 1 0 = .ok []
    ∧ obsmodeStartFindings ["acs,x"] = .ok [] :=
  ⟨(c6_amended_obsmode.1 "acs" 1 0).mpr (by decide),
   (c6_amended_obsmode.2.2 "acs,x" 1 0 (by decide) (by decide)).1⟩

/-! ## Decomposition lemmas for the checker -/

lemma seq2_ok_nil {x y : Except RunErr (List Finding)} :
    seq2 x y = .ok [] ↔ x = .ok [] ∧ y = .ok [] := by
  cases x <;> cases y <;>
    simp [seq2, Bind.bind, Except.bind, List.append_eq_nil]

lemma forFindings_ok_nil {α : Type} {l : List α} {f : α → Except RunErr (List Finding)} :
    forFindings l f = .ok [] ↔ ∀ x ∈ l, f x = .ok [] := by
  induction l with
  | nil => simp [forFindings]
  | cons a as ih => simp [forFindings, seq2_ok_nil, ih]

lemma chkIsZero_ok_iff {row : Row} {e r : Nat} {nm : String} {v : Int}
    (hv : rowLookup row nm = some (.int v)) :
    chkIsZero row e r nm = .ok [] ↔ v = 0 := by
  by_cases h : v = 0 <;>
    simp [chkIsZero, getVal, hv, pyEqInt, Bind.bind, Except.bind, h]

lemma chkListZeroBuggy_ok_iff {row : Row} {e r : Nat} {nm : String} :
    chkListZeroBuggy row e r nm = .ok [] ↔ rowLookup row nm = some (.arr [0]) := by
  rcases hv : rowLookup row nm with _ | v
  · simp [chkListZeroBuggy, getVal, hv, Bind.bind, Except.bind]
  · cases v with
    | int n => simp [chkListZeroBuggy, getVal, hv, pyToList, Bind.bind, Except.bind]
    | str s => simp [chkListZeroBuggy, getVal, hv, pyToList, Bind.bind, Except.bind]
    | arr a =>
      by_cases h : a = [0] <;>
        simp [chkListZeroBuggy, getVal, hv, pyToList, Bind.bind, Except.bind, h]

lemma chkListZero_ok_iff {row : Row} {e r : Nat} {nm : String} :
    chkListZero row e r nm = .ok [] ↔ rowLookup row nm = some (.arr [0]) := by
  rcases hv : rowLookup row nm with _ | v
  · simp [chkListZero, getVal, hv, Bind.bind, Except.bind]
  · cases v with
    | int n => simp [chkListZero, getVal, hv, pyToList, Bind.bind, Except.bind]
    | str s => simp [chkListZero, getVal, hv, pyToList, Bind.bind, Except.bind]
    | arr a =>
      by_cases h : a = [0] <;>
        simp [chkListZero, getVal, hv, pyToList, Bind.bind, Except.bind, h]

lemma chkBlank_ok_iff {row : Row} {e r : Nat} {nm : String} :
    chkBlank row e r nm = .ok [] ↔ rowLookup row nm = some (.str "") := by
  rcases hv : rowLookup row nm with _ | v
  · simp [chkBlank, getVal, hv, Bind.bind, Except.bind]
  · cases v with
    | int n => simp [chkBlank, getVal, hv, pyEqStr, Bind.bind, Except.bind]
    | arr a => simp [chkBlank, getVal, hv, pyEqStr, Bind.bind, Except.bind]
    | str s =>
      by_cases h : s = "" <;>
        simp [chkBlank, getVal, hv, pyEqStr, Bind.bind, Except.bind, h]

lemma chkNonBlank_ok_iff {row : Row} {e r : Nat} {nm : String} {s : String}
    (hs : rowLookup row nm = some (.str s)) :
    chkNonBlank row e r nm = .ok [] ↔ s ≠ "" := by
  by_cases h : s = "" <;>
    simp [chkNonBlank, getVal, hs, pyEqStr, Bind.bind, Except.bind, h]

lemma chkDataLen_ok_iff {row : Row} {e r : Nat} {nm : String} {a : List Int}
    {dlen : Int} (ha : rowLookup row nm = some (.arr a)) :
    chkDataLen row e r nm dlen = .ok [] ↔ (a.length : Int) = dlen := by
  by_cases h : (a.length : Int) = dlen <;>
    simp [chkDataLen, getVal, ha, pyLen, Bind.bind, Except.bind, h]

lemma chkParValLen_ok_iff {row : Row} {e r : Nat} {pnm nnm : String}
    {a : List Int} {v : Int}
    (hp : rowLookup row pnm = some (.arr a))
    (hn : rowLookup row nnm = some (.int v)) :
    chkParValLen row e r pnm nnm = .ok [] ↔ v = (a.length : Int) := by
  by_cases h : v = (a.length : Int) <;>
    simp [chkParValLen, getVal, hp, hn, pyLen, pyEqInt, Bind.bind, Except.bind, h]

lemma nelemProd_eq {row : Row} {e r : Nat} :
    ∀ (nms : List String) (acc : Int),
      (∀ nm ∈ nms, ∃ v : Int, rowLookup row nm = some (.int v)) →
      nelemProd row e r nms acc =
        .ok (nms.filterMap
              (fun nm => if lookupIntD row nm = 0 then some (Finding.colZero nm e r)
                         else none),
             nms.foldl (fun acc2 nm => acc2 * lookupIntD row nm) acc) := by
  intro nms
  induction nms with
  | nil => intro acc _; rfl
  | cons nm rest ih =>
    intro acc ht
    obtain ⟨v, hv⟩ := ht nm (by simp)
    have hD : lookupIntD row nm = v := by simp [lookupIntD, hv]
    have hrest := ih (acc * v) (fun x hx => ht x (by simp [hx]))
    by_cases h : v = 0
    · subst h
      simp only [mul_zero] at hrest
      simp [nelemProd, getVal, hv, pyEqInt, pyMulVal, Bind.bind, Except.bind,
        hrest, hD, List.filterMap_cons]
    · simp [nelemProd, getVal, hv, pyEqInt, pyMulVal, Bind.bind, Except.bind,
        hrest, hD, h, List.filterMap_cons]

lemma repr_inj_le9 {i n : Nat} (h9 : n ≤ 9) (h : Nat.repr i = Nat.repr n) : i = n := by
  rcases Nat.lt_or_ge i 10 with h10 | h10
  · interval_cases i <;> interval_cases n <;> first | rfl | (exfalso; revert h; decide)
  · exfalso
    have h2 := repr_data_length_ge2 h10
    rw [h, repr_lt10 (by omega)] at h2
    simp at h2

lemma dataColName_inj_right {family : String} {i n : Nat} (h9 : n ≤ 9) :
    dataColName family i = dataColName family n ↔ i = n := by
  constructor
  · intro h
    have hd : (family ++ Nat.repr i).data = (family ++ Nat.repr n).data :=
      String.ext_iff.mp h
    rw [String.data_append, String.data_append] at hd
    have := List.append_cancel_left hd
    have hrepr : Nat.repr i = Nat.repr n := String.ext this
    exact repr_inj_le9 h9 hrepr
  · intro h; rw [h]

lemma count_map_dataColName {family : String} {np : Nat} (h9 : np ≤ 9) :
    ∀ l : List Nat,
      (l.map (dataColName family)).count (dataColName family np) = l.count np := by
  intro l
  induction l with
  | nil => rfl
  | cons a as ih =>
    rw [List.map_cons, List.count_cons, List.count_cons, ih]
    by_cases h : a = np
    · simp [h]
    · have : ¬ dataColName family a = dataColName family np :=
        fun hc => h ((dataColName_inj_right h9).mp hc)
      simp [h, this]

lemma mem_erase_dataColNames (family : String) {P np : Nat}
    (hnp1 : 1 ≤ np) (hnp9 : np ≤ 9) (hnpP : np ≤ P) (d : String) :
    d ∈ ((pyRange 1 (P + 1)).map (dataColName family)).erase (dataColName family np) ↔
      ∃ i, i ∈ pyRange 1 (P + 1) ∧ i ≠ np ∧ d = dataColName family i := by
  have hrange : pyRange 1 (P + 1) = List.range' 1 P := by
    simp [pyRange]
  have hmemnp : np ∈ pyRange 1 (P + 1) := by
    rw [hrange, List.mem_range'_1]
    omega
  have hnodup : (pyRange 1 (P + 1)).Nodup := by
    rw [hrange]; exact List.nodup_range' 1 P
  have hc1 : (pyRange 1 (P + 1)).count np = 1 := by
    have hle := List.nodup_iff_count_le_one.mp hnodup np
    have hpos := List.count_pos_iff.mpr hmemnp
    omega
  have hnotmem :
      dataColName family np ∉
        ((pyRange 1 (P + 1)).map (dataColName family)).erase (dataColName family np) := by
    rw [← List.count_eq_zero, List.count_erase_self,
      count_map_dataColName hnp9, hc1]
  constructor
  · intro hd
    have hdin := List.mem_of_mem_erase hd
    obtain ⟨i, hi, rfl⟩ := List.mem_map.mp hdin
    refine ⟨i, hi, ?_, rfl⟩
    intro hip
    subst hip
    exact hnotmem hd
  · rintro ⟨i, hi, hne_i, rfl⟩
    have hne : dataColName family i ≠ dataColName family np :=
      fun hc => hne_i ((dataColName_inj_right hnp9).mp hc)
    exact (List.mem_erase_of_ne hne).mpr (List.mem_map.mpr ⟨i, hi, rfl⟩)

lemma string_mk_data (s : String) : String.mk s.data = s := by
  cases s; rfl

lemma dataColName_data {family : String} {np : Nat} (h1 : 1 ≤ np) (h9 : np ≤ 9) :
    (dataColName family np).data = family.data ++ [Nat.digitChar np] := by
  show (family ++ Nat.repr np).data = _
  rw [String.data_append, repr_lt10 (by omega : np < 10)]

lemma pyDropLast_dataColName {family : String} {np : Nat} (h1 : 1 ≤ np) (h9 : np ≤ 9) :
    pyDropLast (dataColName family np) = family := by
  rw [pyDropLast, dataColName_data h1 h9, List.dropLast_concat, string_mk_data]

lemma classify_dataColName {P np : Nat} {family : String}
    (h1 : 1 ≤ np) (h9 : np ≤ 9) (hP : np ≤ P) :
    classifyDatacol P (dataColName family np) = .ok (.array family np) := by
  obtain ⟨hd, ht⟩ := digitChar_facts h1 h9
  have hlast : (dataColName family np).data.getLast? = some (Nat.digitChar np) := by
    rw [dataColName_data h1 h9]
    exact List.getLast?_concat _
  have hmem : String.mk [Nat.digitChar np] ∈ indexStrings P :=
    (mem_indexStrings _ P).mpr ⟨hd, by omega, by omega⟩
  simp [classifyDatacol, pyLastChar, hlast, hmem, pyParseDigit, hd,
    pyDropLast_dataColName h1 h9, Bind.bind, Except.bind]
  omega

/-- Claim C2: for an array-case row with datacol naming slot np of a
family, and with the columns holding values of the types the table
schema declares for them, check_row emits no finding (and no error) if
and only if the row satisfies the spec-side array-case invariant:
bare family scalar 0, NELEM 1..np nonzero with product equal to the
data array length, NELEM above np zero, sibling data columns [0],
PARNAMES populated up to np and blank above, PARVALUES lengths matching
NELEM up to np and [0] above. -/
theorem c2_array_accept_iff (P np : Nat) (family : String) (row : Row) (e r : Nat)
    (hnp1 : 1 ≤ np) (hnpP : np ≤ P) (hnp9 : np ≤ 9)
    (hdc : rowLookup row "datacol" = some (.str (dataColName family np)))
    (hfam : ∃ v : Int, rowLookup row family = some (.int v))
    (hnel : ∀ i ∈ pyRange 1 (P + 1), ∃ v : Int,
        rowLookup row (nelemName i) = some (.int v))
    (hdat : ∃ a : List Int, rowLookup row (dataColName family np) = some (.arr a))
    (hpn : ∀ i ∈ pyRange 1 (np + 1), ∃ s : String,
        rowLookup row (parNamesName i) = some (.str s))
    (hpv : ∀ i ∈ pyRange 1 (np + 1), ∃ a : List Int,
        rowLookup row (parValsName i) = some (.arr a)) :
    check_row P row e r = .ok [] ↔ specArrayAccepts P np family row = true := by
  obtain ⟨vf, hvf⟩ := hfam
  obtain ⟨a, ha⟩ := hdat
  have hsub1 : ∀ i, i ∈ pyRange 1 (np + 1) → i ∈ pyRange 1 (P + 1) := by
    intro i hi
    simp only [pyRange, Nat.add_sub_cancel, List.mem_range'_1] at hi ⊢
    omega
  have hsub2 : ∀ i, i ∈ pyRange (np + 1) (P + 1) → i ∈ pyRange 1 (P + 1) := by
    intro i hi
    simp only [pyRange, Nat.add_sub_cancel, List.mem_range'_1] at hi ⊢
    omega
  have hstep : check_row P row e r = arrayChecks P np row e r (dataColName family np) := by
    simp [check_row, getVal, hdc, asStr, classify_dataColName hnp1 hnp9 hnpP,
      Bind.bind, Except.bind]
  have htM : ∀ nm ∈ (pyRange 1 (np + 1)).map nelemName, ∃ v : Int,
      rowLookup row nm = some (.int v) := by
    rw [List.forall_mem_map]
    intro i hi
    exact hnel i (hsub1 i hi)
  have hAiff : chkIsZero row e r family = .ok [] ↔
      (rowLookup row family == some (Value.int 0)) = true := by
    rw [chkIsZero_ok_iff hvf, beq_iff_eq, hvf]
    simp
  have hMiff :
      (do
        let fsdl ← nelemProd row e r ((pyRange 1 (np + 1)).map nelemName) 1
        let lf ← chkDataLen row e r (dataColName family np) fsdl.2
        Except.ok (fsdl.1 ++ lf)) = Except.ok ([] : List Finding) ↔
      ((∀ i ∈ pyRange 1 (np + 1), nelemNonzeroB row i = true)
        ∧ specProdB row family np = true) := by
    rw [nelemProd_eq _ 1 htM]
    simp only [chkDataLen, getVal, ha, pyLen, Bind.bind, Except.bind]
    rw [List.foldl_map]
    constructor
    · intro h
      rw [Except.ok.injEq] at h
      obtain ⟨hfs, hif⟩ := List.append_eq_nil.mp h
      rw [List.filterMap_eq_nil_iff] at hfs
      constructor
      · intro i hi
        obtain ⟨v, hv⟩ := hnel i (hsub1 i hi)
        have h2 := hfs (nelemName i) (List.mem_map_of_mem _ hi)
        have hDv : lookupIntD row (nelemName i) = v := by simp [lookupIntD, hv]
        have hz : ¬ v = 0 := by
          intro hz0
          rw [if_pos (by rw [hDv, hz0])] at h2
          exact Option.noConfusion h2
        simp [nelemNonzeroB, hv, hz]
      · have hcond : ((a.length : Int) ==
            List.foldl (fun x y => x * lookupIntD row (nelemName y)) 1
              (pyRange 1 (np + 1))) = true := by
          cases hbeq : ((a.length : Int) ==
              List.foldl (fun x y => x * lookupIntD row (nelemName y)) 1
                (pyRange 1 (np + 1))) with
          | true => rfl
          | false =>
            rw [hbeq] at hif
            simp at hif
        simp only [specProdB, ha, beq_iff_eq]
        rw [beq_iff_eq] at hcond
        exact hcond.symm
    · rintro ⟨hnz, hprod⟩
      simp only [specProdB, ha, beq_iff_eq] at hprod
      have hcond : ((a.length : Int) ==
          List.foldl (fun x y => x * lookupIntD row (nelemName y)) 1
            (pyRange 1 (np + 1))) = true := by
        rw [beq_iff_eq]
        exact hprod.symm
      rw [Except.ok.injEq, List.append_eq_nil]
      constructor
      · rw [List.filterMap_eq_nil_iff, List.forall_mem_map]
        intro i hi
        obtain ⟨v, hv⟩ := hnel i (hsub1 i hi)
        have hDv : lookupIntD row (nelemName i) = v := by simp [lookupIntD, hv]
        have hz := hnz i hi
        simp [nelemNonzeroB, hv] at hz
        rw [if_neg (by rw [hDv]; exact hz)]
      · rw [if_pos hcond]
  have hBiff : forFindings ((pyRange (np + 1) (P + 1)).map nelemName)
      (chkIsZero row e r) = .ok [] ↔
      ∀ i ∈ pyRange (np + 1) (P + 1),
        (rowLookup row (nelemName i) == some (Value.int 0)) = true := by
    rw [forFindings_ok_nil, List.forall_mem_map]
    refine forall_congr' (fun i => imp_congr_right (fun hi => ?_))
    obtain ⟨v, hv⟩ := hnel i (hsub2 i hi)
    rw [chkIsZero_ok_iff hv, beq_iff_eq, hv]
    simp
  have hCiff : forFindings
      (((pyRange 1 (P + 1)).map (dataColName family)).erase (dataColName family np))
      (chkListZeroBuggy row e r) = .ok [] ↔
      ∀ i ∈ pyRange 1 (P + 1),
        (i == np || rowLookup row (dataColName family i) == some (Value.arr [0]))
          = true := by
    rw [forFindings_ok_nil]
    constructor
    · intro h i hi
      by_cases hip : i = np
      · simp [hip]
      · have hm := (mem_erase_dataColNames family hnp1 hnp9 hnpP _).mpr ⟨i, hi, hip, rfl⟩
        have h2 := chkListZeroBuggy_ok_iff.mp (h _ hm)
        simp [hip, h2]
    · intro h d hd
      obtain ⟨i, hi, hip, rfl⟩ := (mem_erase_dataColNames family hnp1 hnp9 hnpP d).mp hd
      have h2 := h i hi
      simp [hip] at h2
      exact chkListZeroBuggy_ok_iff.mpr h2
  have hDiff : forFindings ((pyRange 1 (np + 1)).map parNamesName)
      (chkNonBlank row e r) = .ok [] ↔
      ∀ i ∈ pyRange 1 (np + 1), parNameNonemptyB row i = true := by
    rw [forFindings_ok_nil, List.forall_mem_map]
    refine forall_congr' (fun i => imp_congr_right (fun hi => ?_))
    obtain ⟨s, hs⟩ := hpn i hi
    rw [chkNonBlank_ok_iff hs]
    simp [parNameNonemptyB, hs]
  have hEiff : forFindings ((pyRange (np + 1) (P + 1)).map parNamesName)
      (chkBlank row e r) = .ok [] ↔
      ∀ i ∈ pyRange (np + 1) (P + 1),
        (rowLookup row (parNamesName i) == some (Value.str "")) = true := by
    rw [forFindings_ok_nil, List.forall_mem_map]
    refine forall_congr' (fun i => imp_congr_right (fun hi => ?_))
    rw [chkBlank_ok_iff, beq_iff_eq]
  have hFiff : forFindings
      (List.zip ((pyRange 1 (np + 1)).map parValsName)
        ((pyRange 1 (np + 1)).map nelemName))
      (fun q => chkParValLen row e r q.1 q.2) = .ok [] ↔
      ∀ i ∈ pyRange 1 (np + 1), parValLenB row i = true := by
    rw [List.zip_map', forFindings_ok_nil, List.forall_mem_map]
    refine forall_congr' (fun i => imp_congr_right (fun hi => ?_))
    obtain ⟨a2, hp⟩ := hpv i hi
    obtain ⟨v, hn⟩ := hnel i (hsub1 i hi)
    rw [chkParValLen_ok_iff hp hn]
    simp only [parValLenB, hp, hn, beq_iff_eq]
    exact eq_comm
  have hGiff : forFindings ((pyRange (np + 1) (P + 1)).map parValsName)
      (chkListZero row e r) = .ok [] ↔
      ∀ i ∈ pyRange (np + 1) (P + 1),
        (rowLookup row (parValsName i) == some (Value.arr [0])) = true := by
    rw [forFindings_ok_nil, List.forall_mem_map]
    refine forall_congr' (fun i => imp_congr_right (fun hi => ?_))
    rw [chkListZero_ok_iff, beq_iff_eq]
  rw [hstep]
  simp only [arrayChecks, pyDropLast_dataColName hnp1 hnp9, seq2_ok_nil]
  rw [hAiff, hMiff, hBiff, hCiff, hDiff, hEiff, hFiff, hGiff]
  simp only [specArrayAccepts, Bool.and_eq_true, List.all_eq_true, and_assoc]

/-- Witness for c2_array_accept_iff on the conforming scenario row of
the spec (P = 2, np = 2, product 2 * 2 = 4 = data length). -/
theorem c2_array_accept_iff_witness :
    check_row 2 conformingArrayRow 1 0 = .ok []
    ∧ specArrayAccepts 2 2 "PHOTFLAM" conformingArrayRow = true := by
  have hnel : ∀ i ∈ pyRange 1 3, ∃ v : Int,
      rowLookup conformingArrayRow (nelemName i) = some (.int v) := by
    intro i hi
    simp [pyRange, List.range'] at hi
    rcases hi with rfl | rfl
    · exact ⟨2, rfl⟩
    · exact ⟨2, rfl⟩
  have hpn : ∀ i ∈ pyRange 1 3, ∃ s : String,
      rowLookup conformingArrayRow (parNamesName i) = some (.str s) := by
    intro i hi
    simp [pyRange, List.range'] at hi
    rcases hi with rfl | rfl
    · exact ⟨"WAVELENGTH", rfl⟩
    · exact ⟨"ANGLE", rfl⟩
  have hpv : ∀ i ∈ pyRange 1 3, ∃ a : List Int,
      rowLookup conformingArrayRow (parValsName i) = some (.arr a) := by
    intro i hi
    simp [pyRange, List.range'] at hi
    rcases hi with rfl | rfl
    · exact ⟨[10, 20], rfl⟩
    · exact ⟨[30, 40], rfl⟩
  have h := c2_array_accept_iff 2 2 "PHOTFLAM" conformingArrayRow 1 0
    (by decide) (by decide) (by decide) rfl ⟨0, rfl⟩ hnel ⟨[1, 2, 3, 4], rfl⟩ hpn hpv
  exact ⟨h.mpr (by decide), by decide⟩
